import Mathlib

/-!
Verification development for the mint_nft on-chain program.

The Rust sources (src/processor.rs, src/processor/mint.rs, src/utils.rs,
src/instruction.rs) are shallowly embedded below.  Public keys are modelled
as natural numbers; the external runtime (`invoke` / `invoke_signed`) is
modelled by an environment that decides the outcome of each emitted
cross-program call; rent (deserialized from the rent sysvar account) is
modelled by an environment-supplied minimum-balance function.  A run of the
program produces the list of cross-program calls it emitted, in order,
together with its result.
-/

namespace MintNft

/-- Public keys are modelled abstractly as natural numbers. -/
abbrev Pubkey := Nat

/-- The distinguished spl_token program id checked by the spl_token
instruction builders (`check_program_account`). -/
def SPL_TOKEN_ID : Pubkey := 5

/-- The caller-visible fields of a `solana_program::account_info::AccountInfo`
that the embedded code reads: the address, the transaction-level signer flag,
the on-chain owner, and the lamport balance. -/
structure AccountInfo where
  key : Pubkey
  is_signer : Bool
  owner : Pubkey
  lamports : Nat
deriving DecidableEq

/-- Error taxonomy of the program: the `AppError` variants referenced from
src/utils.rs, `ProgramError::MissingRequiredSignature` (spelled
`MissingSignature` as in the spec), `NotEnoughAccountKeys` from
`next_account_info`, the borsh decode failure, the spl_token builders'
`IncorrectProgramId`, and an opaque code for errors surfaced verbatim from
an external program call. -/
inductive Err where
  | MissingSignature
  | InvalidOwner
  | InvalidEqPubkey
  | InvalidDerivedKey
  | NotEnoughAccountKeys
  | DecodeError
  | IncorrectProgramId
  | External (code : Nat)
deriving DecidableEq

/-- `mpl_token_metadata::state::Creator`. -/
structure Creator where
  address : Pubkey
  verified : Bool
  share : Nat
deriving DecidableEq

/-- A cross-program call emitted by the program, with the argument layout of
the instruction builder that produced it (system program, spl_token,
spl_associated_token_account, mpl_token_metadata).  For the metadata call the
trailing `collection` and `uses` arguments, always `None` in the source, are
omitted. -/
inductive Call where
  | createAccount (funding newAccount : Pubkey) (lamports space : Nat) (owner : Pubkey)
  | initMint (tokenProgram mint mintAuthority : Pubkey)
      (freezeAuthority : Option Pubkey) (decimals : Nat)
  | createAta (funding wallet mint : Pubkey)
  | mintTo (tokenProgram mint dest authority : Pubkey)
      (signerKeys : List Pubkey) (amount : Nat)
  | createMetadata (program metadata mint mintAuthority payer updateAuthority : Pubkey)
      (name symbol uri : String) (creators : Option (List Creator))
      (sellerFeeBasisPoints : Nat) (updateAuthorityIsSigner isMutable : Bool)
  | createMasterEdition (program edition mint updateAuthority mintAuthority metadata payer : Pubkey)
      (maxSupply : Option Nat)
  | transfer (funding recipient : Pubkey) (lamports : Nat)
  | allocate (account : Pubkey) (space : Nat)
  | assign (account owner : Pubkey)
deriving DecidableEq

/-- The constructor tag of a call, used to state ordering properties. -/
inductive CallKind where
  | createAccount | initMint | createAta | mintTo | createMetadata
  | createMasterEdition | transfer | allocate | assign
deriving DecidableEq

/-- Projection of a call to its kind. -/
def Call.kind : Call → CallKind
  | .createAccount .. => .createAccount
  | .initMint .. => .initMint
  | .createAta .. => .createAta
  | .mintTo .. => .mintTo
  | .createMetadata .. => .createMetadata
  | .createMasterEdition .. => .createMasterEdition
  | .transfer .. => .transfer
  | .allocate .. => .allocate
  | .assign .. => .assign

/-- The mint address an spl_token mint-related call is about, if any. -/
def Call.mintKey : Call → Option Pubkey
  | .initMint _ m _ _ _ => some m
  | .mintTo _ m _ _ _ _ => some m
  | _ => none

/-- The rent model deserialized from the rent sysvar account
(`Rent::from_account_info`): all the embedded code uses of it is
`minimum_balance`. -/
structure Rent where
  minimumBalance : Nat → Nat

/-- The host runtime, as seen by the program: `rentOf` is the outcome of
`Rent::from_account_info` on a given account, and `callResult` is the outcome
of `invoke`/`invoke_signed` on an emitted call (the error being the one
surfaced verbatim from the callee). -/
structure Env where
  rentOf : AccountInfo → Except Err Rent
  callResult : Call → Except Err Unit

/-- `spl_token::check_program_account`, performed by the spl_token
instruction builders before constructing the instruction. -/
def check_program_account (tokenProgramId : Pubkey) : Except Err Unit :=
  if tokenProgramId = SPL_TOKEN_ID then .ok () else .error .IncorrectProgramId

/-- `spl_token::instruction::initialize_mint` (named `init_mint` here):
fails with `IncorrectProgramId` unless the token program id is the spl_token
id, else builds the initialize-mint call. -/
def init_mint (tokenProgramId mint mintAuthority : Pubkey)
    (freezeAuthority : Option Pubkey) (decimals : Nat) : Except Err Call :=
  match check_program_account tokenProgramId with
  | .error e => .error e
  | .ok _ => .ok (.initMint tokenProgramId mint mintAuthority freezeAuthority decimals)

/-- `spl_token::instruction::mint_to`: fails with `IncorrectProgramId`
unless the token program id is the spl_token id, else builds the
mint-to call. -/
def mint_to (tokenProgramId mint dest owner : Pubkey)
    (signerKeys : List Pubkey) (amount : Nat) : Except Err Call :=
  match check_program_account tokenProgramId with
  | .error e => .error e
  | .ok _ => .ok (.mintTo tokenProgramId mint dest owner signerKeys amount)

/-- `assert_signer` from src/utils.rs: fails with `MissingSignature`
(`ProgramError::MissingRequiredSignature`) unless the account's signer flag
is set. -/
def assert_signer (account_info : AccountInfo) : Except Err Unit :=
  if !account_info.is_signer then .error .MissingSignature else .ok ()

/-- `assert_eq_pubkey` from src/utils.rs. -/
def assert_eq_pubkey (account_info : AccountInfo) (account : Pubkey) : Except Err Unit :=
  if account_info.key ≠ account then .error .InvalidEqPubkey else .ok ()

/-- `assert_owned_by` from src/utils.rs. -/
def assert_owned_by (account : AccountInfo) (owner : Pubkey) : Except Err Unit :=
  if account.owner ≠ owner then .error .InvalidOwner else .ok ()

/-- `assert_derivation` from src/utils.rs.  `Pubkey::find_program_address`
is external to this repository (a hash-based derivation); it is taken as an
explicit function argument `fpa` mapping a seed path and program id to the
derived address and bump byte. -/
def assert_derivation (fpa : List (List Nat) → Pubkey → Pubkey × Nat)
    (program_id : Pubkey) (account : AccountInfo) (path : List (List Nat)) :
    Except Err Nat :=
  let kb := fpa path program_id
  if kb.1 ≠ account.key then .error .InvalidDerivedKey else .ok kb.2

/-- Runs a list of pipeline steps in order.  Each step is the result of an
instruction builder: a builder failure (`.error`) aborts before emitting
anything further; a built call is emitted (appears in the trace) and then
dispatched to the runtime, whose failure aborts the pipeline.  Returns the
ordered trace of emitted calls and the final result. -/
def runPipeline (env : Env) : List (Except Err Call) → List Call × Except Err Unit
  | [] => ([], .ok ())
  | .error e :: _ => ([], .error e)
  | .ok c :: rest =>
    match env.callResult c with
    | .error e => ([c], .error e)
    | .ok _ =>
      let r := runPipeline env rest
      (c :: r.1, r.2)

/-- The six pipeline steps of `process_mint`, in source order, exactly as
built at the `invoke` call sites in src/processor/mint.rs; steps 2 and 4
carry the spl_token builders' own possible failure.  Arguments are the
accounts those call sites read: authority, signer, mint, ata, token program,
metadata program, metadata, edition, plus the computed rent-exempt balance
for the 82-byte mint record. -/
def mintStepsList (authority_info signer_info mint_info ata_info token_program_info
    metadata_program_info metadata_info edition_info : AccountInfo)
    (required_lamports : Nat) : List (Except Err Call) :=
  [
    .ok (.createAccount signer_info.key mint_info.key required_lamports 82
      token_program_info.key),
    init_mint token_program_info.key mint_info.key authority_info.key
      (some authority_info.key) 0,
    .ok (.createAta signer_info.key signer_info.key mint_info.key),
    mint_to token_program_info.key mint_info.key ata_info.key signer_info.key
      [signer_info.key] 1,
    .ok (.createMetadata metadata_program_info.key metadata_info.key mint_info.key
      signer_info.key signer_info.key signer_info.key
      "my_title" "my_symbol"
      "https://arweave.net/y5e5DJsiwH0s_ayfMwYk-SnrZtVZzHLQDSTZ5dNRUHA"
      (some [⟨signer_info.key, false, 100⟩]) 1 true false),
    .ok (.createMasterEdition metadata_program_info.key edition_info.key mint_info.key
      signer_info.key signer_info.key metadata_info.key signer_info.key (some 0))
  ]

/-- The six cross-program calls of a fully successful pipeline (the values
the spl_token builders produce when the token-program check passes). -/
def mintCallList (authority_info signer_info mint_info ata_info token_program_info
    metadata_program_info metadata_info edition_info : AccountInfo)
    (required_lamports : Nat) : List Call :=
  [
    .createAccount signer_info.key mint_info.key required_lamports 82
      token_program_info.key,
    .initMint token_program_info.key mint_info.key authority_info.key
      (some authority_info.key) 0,
    .createAta signer_info.key signer_info.key mint_info.key,
    .mintTo token_program_info.key mint_info.key ata_info.key signer_info.key
      [signer_info.key] 1,
    .createMetadata metadata_program_info.key metadata_info.key mint_info.key
      signer_info.key signer_info.key signer_info.key
      "my_title" "my_symbol"
      "https://arweave.net/y5e5DJsiwH0s_ayfMwYk-SnrZtVZzHLQDSTZ5dNRUHA"
      (some [⟨signer_info.key, false, 100⟩]) 1 true false,
    .createMasterEdition metadata_program_info.key edition_info.key mint_info.key
      signer_info.key signer_info.key metadata_info.key signer_info.key (some 0)
  ]

/-- The setup phase of `process_mint` (src/processor/mint.rs): the eleven
positional `next_account_info` reads (a short list fails at the first
out-of-bounds read with `NotEnoughAccountKeys`), the `assert_signer` check on
the second account, and `Rent::from_account_info` on the rent account; on
success it yields the six pipeline steps. -/
def mintSteps (env : Env) (accounts : List AccountInfo) :
    Except Err (List (Except Err Call)) :=
  match accounts with
  | authority_info :: signer_info :: mint_info :: ata_info :: token_program_info ::
      _ass_token_program_info :: rent_info :: _system_info :: metadata_program_info ::
      metadata_info :: edition_info :: _ =>
    match assert_signer signer_info with
    | .error e => .error e
    | .ok _ =>
      match env.rentOf rent_info with
      | .error e => .error e
      | .ok rent =>
        .ok (mintStepsList authority_info signer_info mint_info ata_info
          token_program_info metadata_program_info metadata_info edition_info
          (rent.minimumBalance 82))
  | _ => .error .NotEnoughAccountKeys

/-- `process_mint` from src/processor/mint.rs.  The `_title` and `_uri`
arguments mirror the call site in src/processor.rs (which passes the decoded
`args.title` and `args.uri`); the body of `process_mint` never reads them.
Returns the ordered trace of emitted cross-program calls together with the
result. -/
def process_mint (env : Env) (accounts : List AccountInfo)
    (_title : Option (List Nat)) (_uri : List Nat) : List Call × Except Err Unit :=
  match mintSteps env accounts with
  | .error e => ([], .error e)
  | .ok steps => runPipeline env steps

/-- `create_or_allocate_account_raw` from src/utils.rs.  The trace pairs each
emitted call with the signing seeds passed to `invoke_signed` (the lamport
transfer uses plain `invoke`, hence empty seeds). -/
def create_or_allocate_account_raw (env : Env) (program_id : Pubkey)
    (new_account_info rent_sysvar_info _system_program_info payer_info : AccountInfo)
    (size : Nat) (signer_seeds : List (List Nat)) :
    List (Call × List (List Nat)) × Except Err Unit :=
  match env.rentOf rent_sysvar_info with
  | .error e => ([], .error e)
  | .ok rent =>
    let required_lamports := max (rent.minimumBalance size) 1 - new_account_info.lamports
    let tCall := Call.transfer payer_info.key new_account_info.key required_lamports
    let aCall := Call.allocate new_account_info.key size
    let gCall := Call.assign new_account_info.key program_id
    let tail : List (Call × List (List Nat)) × Except Err Unit :=
      match env.callResult aCall with
      | .error e => ([(aCall, signer_seeds)], .error e)
      | .ok _ =>
        match env.callResult gCall with
        | .error e => ([(aCall, signer_seeds), (gCall, signer_seeds)], .error e)
        | .ok _ => ([(aCall, signer_seeds), (gCall, signer_seeds)], .ok ())
    if 0 < required_lamports then
      match env.callResult tCall with
      | .error e => ([(tCall, [])], .error e)
      | .ok _ => ((tCall, []) :: tail.1, tail.2)
    else tail

/-! ### The instruction and its borsh wire format (src/instruction.rs)

Strings are modelled by their UTF-8 byte sequences (`List Nat`, each entry a
byte); borsh serializes a `String` as a little-endian `u32` byte length
followed by the bytes, an `Option` as a one-byte present/absent flag, and an
enum as a one-byte variant tag followed by the variant's fields in
declaration order. -/

/-- `MintNftArgs` from src/instruction.rs (field order: `uri`, then
`title`), strings as byte sequences. -/
structure MintNftArgs where
  uri : List Nat
  title : Option (List Nat)
deriving DecidableEq

/-- `GameInstruction` from src/instruction.rs: a single variant `Mint`
with tag byte 0. -/
inductive GameInstruction where
  | Mint (args : MintNftArgs)
deriving DecidableEq

/-- Little-endian 4-byte encoding of a `u32`. -/
def serializeU32 (n : Nat) : List Nat :=
  [n % 256, n / 256 % 256, n / 65536 % 256, n / 16777216 % 256]

/-- Borsh encoding of a string: `u32` length prefix, then the bytes. -/
def serializeBytes (s : List Nat) : List Nat :=
  serializeU32 s.length ++ s

/-- Borsh encoding of an optional string: flag byte 0 for `None`,
flag byte 1 followed by the string for `Some`. -/
def serializeOptBytes : Option (List Nat) → List Nat
  | none => [0]
  | some s => 1 :: serializeBytes s

/-- Borsh encoding of `MintNftArgs`: `uri` then `title`. -/
def MintNftArgs.serialize (a : MintNftArgs) : List Nat :=
  serializeBytes a.uri ++ serializeOptBytes a.title

/-- Borsh encoding of `GameInstruction`: tag byte 0, then the args. -/
def GameInstruction.serialize : GameInstruction → List Nat
  | .Mint a => 0 :: a.serialize

/-- Reads a little-endian `u32` from the front of the buffer. -/
def readU32 : List Nat → Option (Nat × List Nat)
  | b0 :: b1 :: b2 :: b3 :: rest =>
    some (b0 + 256 * b1 + 65536 * b2 + 16777216 * b3, rest)
  | _ => none

/-- Reads exactly `n` bytes from the front of the buffer. -/
def readBytes (n : Nat) (l : List Nat) : Option (List Nat × List Nat) :=
  if n ≤ l.length then some (l.take n, l.drop n) else none

/-- Borsh decoding of a string. -/
def readString (l : List Nat) : Option (List Nat × List Nat) :=
  match readU32 l with
  | none => none
  | some (n, rest) => readBytes n rest

/-- Borsh decoding of an optional string; a flag byte other than 0 or 1 is
a decode error. -/
def readOptString (l : List Nat) : Option (Option (List Nat) × List Nat) :=
  match l with
  | 0 :: rest => some (none, rest)
  | 1 :: rest =>
    match readString rest with
    | none => none
    | some (s, r) => some (some s, r)
  | _ => none

/-- Borsh decoding of `MintNftArgs`. -/
def readMintNftArgs (l : List Nat) : Option (MintNftArgs × List Nat) :=
  match readString l with
  | none => none
  | some (uri, r1) =>
    match readOptString r1 with
    | none => none
    | some (title, r2) => some (⟨uri, title⟩, r2)

/-- Borsh decoding of `GameInstruction`: an unknown tag byte is a decode
error. -/
def readGameInstruction (l : List Nat) : Option (GameInstruction × List Nat) :=
  match l with
  | 0 :: rest =>
    match readMintNftArgs rest with
    | none => none
    | some (a, r) => some (.Mint a, r)
  | _ => none

/-- `GameInstruction::try_from_slice` as used in src/processor.rs: borsh
decoding that additionally rejects any buffer not fully consumed (trailing
bytes are a decode error). -/
def gameInstructionTryFromSlice (input : List Nat) : Except Err GameInstruction :=
  match readGameInstruction input with
  | some (gi, []) => .ok gi
  | some (_, _ :: _) => .error .DecodeError
  | none => .error .DecodeError

/-- Serializability bound for an optional string: borsh length prefixes are
`u32`. -/
def lenOkOpt : Option (List Nat) → Bool
  | none => true
  | some t => decide (t.length < 4294967296)

/-- Serializability bound for `GameInstruction`: every string field is
shorter than 2^32 bytes. -/
def GameInstruction.lenOk : GameInstruction → Bool
  | .Mint a => decide (a.uri.length < 4294967296) && lenOkOpt a.title

/-- `process_instruction` from src/processor.rs: decode the input buffer,
then dispatch `Mint` to `process_mint`, forwarding the decoded `title` and
`uri`. -/
def process_instruction (env : Env) (accounts : List AccountInfo)
    (input : List Nat) : List Call × Except Err Unit :=
  match gameInstructionTryFromSlice input with
  | .error e => ([], .error e)
  | .ok (.Mint args) => process_mint env accounts args.title args.uri

/-! ### Concrete data used by the witnesses -/

/-- A concrete rent model for witnesses. -/
def rent0 : Rent := ⟨fun n => 2 * n + 10⟩

/-- A concrete runtime for witnesses: rent always deserializes to `rent0`
and every cross-program call succeeds. -/
def env0 : Env := ⟨fun _ => .ok rent0, fun _ => .ok ()⟩

/-- A concrete account for witnesses. -/
def acct (k : Pubkey) (s : Bool) : AccountInfo := ⟨k, s, 0, 0⟩

/-- A complete, correctly ordered account list: the signer flag is set on
position 1 and position 4 carries the spl_token program id. -/
def accts0 : List AccountInfo :=
  [acct 1 false, acct 2 true, acct 3 false, acct 4 false, acct SPL_TOKEN_ID false,
   acct 6 false, acct 7 false, acct 8 false, acct 9 false, acct 10 false, acct 11 false]

/-- The same account list with the signer flag unset on position 1. -/
def acctsNoSigner : List AccountInfo :=
  [acct 1 false, acct 2 false, acct 3 false, acct 4 false, acct SPL_TOKEN_ID false,
   acct 6 false, acct 7 false, acct 8 false, acct 9 false, acct 10 false, acct 11 false]

/-- The account list truncated before the edition account (10 entries). -/
def acctsShort : List AccountInfo :=
  [acct 1 false, acct 2 true, acct 3 false, acct 4 false, acct SPL_TOKEN_ID false,
   acct 6 false, acct 7 false, acct 8 false, acct 9 false, acct 10 false]

/-- A rent-free rent model (`Rent::free()` in the host runtime has
`lamports_per_byte_year = 0`, hence minimum balance 0 for every size). -/
def rentFree : Rent := ⟨fun _ => 0⟩

/-- A runtime whose rent model is rent-free and whose calls all succeed. -/
def envFree : Env := ⟨fun _ => .ok rentFree, fun _ => .ok ()⟩

/-! ### Helper lemmas -/

/-- Every call in a pipeline trace comes from a successfully built step. -/
lemma mem_of_mem_runPipeline (env : Env) :
    ∀ (steps : List (Except Err Call)) (c : Call),
      c ∈ (runPipeline env steps).1 → Except.ok c ∈ steps := by
  intro steps
  induction steps with
  | nil => intro c hc; simp [runPipeline] at hc
  | cons s rest ih =>
    intro c hc
    match s with
    | .error e => simp [runPipeline] at hc
    | .ok c0 =>
      cases hr : env.callResult c0 with
      | error e =>
        simp [runPipeline, hr] at hc
        simp [hc]
      | ok u =>
        simp [runPipeline, hr] at hc
        rcases hc with hc | hc
        · simp [hc]
        · exact List.mem_cons_of_mem _ (ih c hc)

/-- When the token-program check passes, the six steps are the six calls. -/
lemma mintStepsList_eq_map (a0 a1 a2 a3 a4 a8 a9 a10 : AccountInfo) (req : Nat)
    (h : a4.key = SPL_TOKEN_ID) :
    mintStepsList a0 a1 a2 a3 a4 a8 a9 a10 req =
      (mintCallList a0 a1 a2 a3 a4 a8 a9 a10 req).map Except.ok := by
  simp [mintStepsList, mintCallList, init_mint, mint_to, check_program_account, h]

/-- Characterization of a successful setup phase: the account list has at
least eleven entries, the signer flag is set on position 1, rent
deserialization succeeded on position 6, and the steps are the six pipeline
steps built from positions 0, 1, 2, 3, 4, 8, 9, 10. -/
lemma mintSteps_eq_ok (env : Env) (accounts : List AccountInfo)
    (steps : List (Except Err Call)) (h : mintSteps env accounts = .ok steps) :
    ∃ a0 a1 a2 a3 a4 a5 a6 a7 a8 a9 a10 rest rent,
      accounts = a0 :: a1 :: a2 :: a3 :: a4 :: a5 :: a6 :: a7 :: a8 :: a9 :: a10 :: rest ∧
      a1.is_signer = true ∧ env.rentOf a6 = .ok rent ∧
      steps = mintStepsList a0 a1 a2 a3 a4 a8 a9 a10 (rent.minimumBalance 82) := by
  rcases accounts with _ | ⟨a0, _ | ⟨a1, _ | ⟨a2, _ | ⟨a3, _ | ⟨a4, _ | ⟨a5, _ | ⟨a6,
    _ | ⟨a7, _ | ⟨a8, _ | ⟨a9, _ | ⟨a10, rest⟩⟩⟩⟩⟩⟩⟩⟩⟩⟩⟩ <;>
    simp only [mintSteps] at h <;> try exact absurd h (by simp)
  cases hs : a1.is_signer with
  | false => simp [assert_signer, hs] at h
  | true =>
    cases hr : env.rentOf a6 with
    | error e => simp [assert_signer, hs, hr] at h
    | ok rent =>
      simp only [assert_signer, hs, Bool.not_true, Bool.false_eq_true, if_false, hr,
        Except.ok.injEq] at h
      exact ⟨a0, a1, a2, a3, a4, a5, a6, a7, a8, a9, a10, rest, rent, rfl, hs, hr, h.symm⟩

/-! ### Claims -/

/-- Claim C3: for every account list of at least 11 entries whose second
account has its signer flag unset, `process_mint` fails with
`MissingSignature` and emits no external call; and `assert_signer` fails if
and only if the account's `is_signer` flag is false. -/
theorem process_mint_missing_signature :
    (∀ (env : Env) (accounts : List AccountInfo) (t : Option (List Nat)) (u : List Nat),
      11 ≤ accounts.length →
      (accounts.getD 1 ⟨0, false, 0, 0⟩).is_signer = false →
      process_mint env accounts t u = ([], .error .MissingSignature)) ∧
    (∀ a : AccountInfo, assert_signer a = .ok () ↔ a.is_signer = true) := by
  constructor
  · intro env accounts t u hlen hs
    rcases accounts with _ | ⟨a0, _ | ⟨a1, _ | ⟨a2, _ | ⟨a3, _ | ⟨a4, _ | ⟨a5, _ | ⟨a6,
      _ | ⟨a7, _ | ⟨a8, _ | ⟨a9, _ | ⟨a10, rest⟩⟩⟩⟩⟩⟩⟩⟩⟩⟩⟩ <;>
      first
      | (exfalso; simp only [List.length_nil, List.length_cons] at hlen; omega)
      | (simp only [List.getD, List.get?, Option.getD] at hs
         simp [process_mint, mintSteps, assert_signer, hs])
  · intro a
    cases h : a.is_signer <;> simp [assert_signer, h]

/-- Witness for C3 at a concrete runtime and account list. -/
theorem process_mint_missing_signature_witness :
    process_mint env0 acctsNoSigner none [] = ([], .error .MissingSignature) :=
  process_mint_missing_signature.1 env0 acctsNoSigner none [] (by decide) (by decide)

/-- Claim C4: for every account list with fewer than 11 entries,
`process_mint` fails with `NotEnoughAccountKeys` and emits no external
call. -/
theorem process_mint_not_enough_account_keys
    (env : Env) (accounts : List AccountInfo) (t : Option (List Nat)) (u : List Nat)
    (hlen : accounts.length < 11) :
    process_mint env accounts t u = ([], .error .NotEnoughAccountKeys) := by
  rcases accounts with _ | ⟨a0, _ | ⟨a1, _ | ⟨a2, _ | ⟨a3, _ | ⟨a4, _ | ⟨a5, _ | ⟨a6,
    _ | ⟨a7, _ | ⟨a8, _ | ⟨a9, _ | ⟨a10, rest⟩⟩⟩⟩⟩⟩⟩⟩⟩⟩⟩ <;>
    first
    | rfl
    | (exfalso; simp only [List.length_cons] at hlen; omega)

/-- Witness for C4: the account list truncated before the edition account
fails with `NotEnoughAccountKeys` before any call, metadata-program calls
included. -/
theorem process_mint_not_enough_account_keys_witness :
    process_mint env0 acctsShort none [] = ([], .error .NotEnoughAccountKeys) :=
  process_mint_not_enough_account_keys env0 acctsShort none [] (by decide)

/-- Any call in a `process_mint` trace is one of the successfully built
pipeline steps, for an account list that passed the setup phase. -/
lemma process_mint_mem_step (env : Env) (accounts : List AccountInfo)
    (t : Option (List Nat)) (u : List Nat) (c : Call)
    (h : c ∈ (process_mint env accounts t u).1) :
    ∃ a0 a1 a2 a3 a4 a5 a6 a7 a8 a9 a10 rest rent,
      accounts = a0 :: a1 :: a2 :: a3 :: a4 :: a5 :: a6 :: a7 :: a8 :: a9 :: a10 :: rest ∧
      a1.is_signer = true ∧ env.rentOf a6 = .ok rent ∧
      Except.ok c ∈ mintStepsList a0 a1 a2 a3 a4 a8 a9 a10 (rent.minimumBalance 82) := by
  cases hms : mintSteps env accounts with
  | error e => simp [process_mint, hms] at h
  | ok steps =>
    obtain ⟨a0, a1, a2, a3, a4, a5, a6, a7, a8, a9, a10, rest, rent, hacc, hs, hr, hsteps⟩ :=
      mintSteps_eq_ok env accounts steps hms
    have hmem := mem_of_mem_runPipeline env steps c (by simpa [process_mint, hms] using h)
    exact ⟨a0, a1, a2, a3, a4, a5, a6, a7, a8, a9, a10, rest, rent, hacc, hs, hr,
      hsteps ▸ hmem⟩

/-- Claim C7: any initialize-mint call emitted by `process_mint` has
decimals 0 and sets both the mint authority and the freeze authority to the
key of the authority account at position 0 of the account list. -/
theorem process_mint_init_mint_fields (env : Env) (accounts : List AccountInfo)
    (t : Option (List Nat)) (u : List Nat) (tk m ma : Pubkey)
    (fa : Option Pubkey) (d : Nat)
    (h : Call.initMint tk m ma fa d ∈ (process_mint env accounts t u).1) :
    d = 0 ∧ ma = (accounts.getD 0 ⟨0, false, 0, 0⟩).key ∧
      fa = some ((accounts.getD 0 ⟨0, false, 0, 0⟩).key) := by
  obtain ⟨a0, a1, a2, a3, a4, a5, a6, a7, a8, a9, a10, rest, rent, hacc, hs, hr, hmem⟩ :=
    process_mint_mem_step env accounts t u _ h
  subst hacc
  by_cases hK : a4.key = SPL_TOKEN_ID
  · simp only [mintStepsList, init_mint, mint_to, check_program_account, hK, if_pos,
      List.mem_cons, List.mem_singleton, Except.ok.injEq, reduceCtorEq,
      List.not_mem_nil, or_false, false_or] at hmem
    rcases hmem with ⟨htk, hm, hma, hfa, hd⟩ | hmem
    all_goals simp_all [List.getD]
  · simp [mintStepsList, init_mint, mint_to, check_program_account, hK] at hmem

/-- Witness for C7 at a concrete runtime and account list. -/
theorem process_mint_init_mint_fields_witness :
    0 = 0 ∧ (1 : Pubkey) = (accts0.getD 0 ⟨0, false, 0, 0⟩).key ∧
      some (1 : Pubkey) = some ((accts0.getD 0 ⟨0, false, 0, 0⟩).key) :=
  process_mint_init_mint_fields env0 accts0 none [] SPL_TOKEN_ID 3 1 (some 1) 0
    (by decide)

/-- Claim C2: the decoded `uri` and `title` never influence any emitted
call — `process_mint` is constant in them, `process_instruction` forwards
them to `process_mint` untouched — and every create-metadata call emitted
carries the fixed constants "my_title", "my_symbol" and the fixed arweave
URI. -/
theorem process_mint_fixed_metadata :
    (∀ (env : Env) (accounts : List AccountInfo) (t t2 : Option (List Nat))
      (u u2 : List Nat), process_mint env accounts t u = process_mint env accounts t2 u2) ∧
    (∀ (env : Env) (accounts : List AccountInfo) (input : List Nat) (args : MintNftArgs),
      gameInstructionTryFromSlice input = .ok (.Mint args) →
      process_instruction env accounts input = process_mint env accounts args.title args.uri) ∧
    (∀ (env : Env) (accounts : List AccountInfo) (t : Option (List Nat)) (u : List Nat)
      (pm md m ma py ua : Pubkey) (nm sym uri : String) (cr : Option (List Creator))
      (sfb : Nat) (uas mtb : Bool),
      Call.createMetadata pm md m ma py ua nm sym uri cr sfb uas mtb ∈
        (process_mint env accounts t u).1 →
      nm = "my_title" ∧ sym = "my_symbol" ∧
        uri = "https://arweave.net/y5e5DJsiwH0s_ayfMwYk-SnrZtVZzHLQDSTZ5dNRUHA") := by
  refine ⟨fun env accounts t t2 u u2 => rfl, fun env accounts input args h => ?_, ?_⟩
  · simp [process_instruction, h]
  · intro env accounts t u pm md m ma py ua nm sym uri cr sfb uas mtb h
    obtain ⟨a0, a1, a2, a3, a4, a5, a6, a7, a8, a9, a10, rest, rent, hacc, hs, hr, hmem⟩ :=
      process_mint_mem_step env accounts t u _ h
    by_cases hK : a4.key = SPL_TOKEN_ID <;>
      simp [mintStepsList, init_mint, mint_to, check_program_account, hK] at hmem <;>
      simp_all

/-- Witness for C2 at a concrete runtime, account list and two concrete
decoded inputs. -/
theorem process_mint_fixed_metadata_witness :
    process_instruction env0 accts0 [0, 1, 0, 0, 0, 65, 0] =
      process_mint env0 accts0 none [65] :=
  process_mint_fixed_metadata.2.1 env0 accts0 [0, 1, 0, 0, 0, 65, 0] ⟨[65], none⟩
    (by rfl)

/-- A pipeline that ends successfully built every step and every emitted
call succeeded; its trace is exactly the built calls, in order. -/
lemma runPipeline_ok_shape (env : Env) :
    ∀ steps : List (Except Err Call), (runPipeline env steps).2 = .ok () →
      steps = ((runPipeline env steps).1).map Except.ok ∧
      ∀ c ∈ (runPipeline env steps).1, env.callResult c = .ok () := by
  intro steps
  induction steps with
  | nil => intro _; simp [runPipeline]
  | cons s rest ih =>
    intro h
    match s with
    | .error e => simp [runPipeline] at h
    | .ok c =>
      cases hr : env.callResult c with
      | error e => simp [runPipeline, hr] at h
      | ok u =>
        cases u
        simp only [runPipeline, hr] at h ⊢
        obtain ⟨ih1, ih2⟩ := ih h
        refine ⟨by simpa using ih1, ?_⟩
        intro c' hc'
        rcases List.mem_cons.mp hc' with hc' | hc'
        · exact hc' ▸ hr
        · exact ih2 c' hc'

/-- Characterization of a fully successful `process_mint` run: the setup
phase passed, the token-program account carries the spl_token id, and the
trace is exactly the six canonical calls. -/
lemma process_mint_ok_shape (env : Env) (accounts : List AccountInfo)
    (t : Option (List Nat)) (u : List Nat)
    (h : (process_mint env accounts t u).2 = .ok ()) :
    ∃ a0 a1 a2 a3 a4 a5 a6 a7 a8 a9 a10 rest rent,
      accounts = a0 :: a1 :: a2 :: a3 :: a4 :: a5 :: a6 :: a7 :: a8 :: a9 :: a10 :: rest ∧
      a1.is_signer = true ∧ env.rentOf a6 = .ok rent ∧ a4.key = SPL_TOKEN_ID ∧
      (process_mint env accounts t u).1 =
        mintCallList a0 a1 a2 a3 a4 a8 a9 a10 (rent.minimumBalance 82) := by
  cases hms : mintSteps env accounts with
  | error e => simp [process_mint, hms] at h
  | ok steps =>
    obtain ⟨a0, a1, a2, a3, a4, a5, a6, a7, a8, a9, a10, rest, rent, hacc, hs, hr, hsteps⟩ :=
      mintSteps_eq_ok env accounts steps hms
    have h2 : (runPipeline env steps).2 = .ok () := by simpa [process_mint, hms] using h
    obtain ⟨hmap, _⟩ := runPipeline_ok_shape env steps h2
    have hmap2 : mintStepsList a0 a1 a2 a3 a4 a8 a9 a10 (rent.minimumBalance 82) =
        ((runPipeline env steps).1).map Except.ok := hsteps.symm.trans hmap
    have hK : a4.key = SPL_TOKEN_ID := by
      by_contra hK
      have hm : init_mint a4.key a2.key a0.key (some a0.key) 0 ∈
          ((runPipeline env steps).1).map Except.ok := by
        rw [← hmap2]; simp [mintStepsList]
      simp [init_mint, check_program_account, hK] at hm
    rw [mintStepsList_eq_map a0 a1 a2 a3 a4 a8 a9 a10 _ hK] at hmap2
    have hinj : Function.Injective (Except.ok : Call → Except Err Call) := by
      intro a b hab; injection hab
    have htr : mintCallList a0 a1 a2 a3 a4 a8 a9 a10 (rent.minimumBalance 82) =
        (runPipeline env steps).1 := List.map_injective_iff.mpr hinj hmap2
    refine ⟨a0, a1, a2, a3, a4, a5, a6, a7, a8, a9, a10, rest, rent, hacc, hs, hr, hK, ?_⟩
    simp only [process_mint, hms]
    exact htr.symm

/-- Claim C8: every mint-to call emitted by `process_mint` mints exactly one
unit into the associated-token-account position (position 3), authorized by
the signer (position 1); and on a successful run the trace contains exactly
one mint-to call, with those arguments. -/
theorem process_mint_mint_to_one :
    (∀ (env : Env) (accounts : List AccountInfo) (t : Option (List Nat)) (u : List Nat)
      (tk m dst a : Pubkey) (sk : List Pubkey) (amt : Nat),
      Call.mintTo tk m dst a sk amt ∈ (process_mint env accounts t u).1 →
      amt = 1 ∧ dst = (accounts.getD 3 ⟨0, false, 0, 0⟩).key ∧
        a = (accounts.getD 1 ⟨0, false, 0, 0⟩).key) ∧
    (∀ (env : Env) (accounts : List AccountInfo) (t : Option (List Nat)) (u : List Nat),
      (process_mint env accounts t u).2 = .ok () →
      ((process_mint env accounts t u).1.filter fun c => decide (c.kind = CallKind.mintTo)) =
        [Call.mintTo (accounts.getD 4 ⟨0, false, 0, 0⟩).key
          (accounts.getD 2 ⟨0, false, 0, 0⟩).key (accounts.getD 3 ⟨0, false, 0, 0⟩).key
          (accounts.getD 1 ⟨0, false, 0, 0⟩).key [(accounts.getD 1 ⟨0, false, 0, 0⟩).key] 1]) := by
  constructor
  · intro env accounts t u tk m dst a sk amt h
    obtain ⟨a0, a1, a2, a3, a4, a5, a6, a7, a8, a9, a10, rest, rent, hacc, hs, hr, hmem⟩ :=
      process_mint_mem_step env accounts t u _ h
    subst hacc
    by_cases hK : a4.key = SPL_TOKEN_ID
    · simp only [mintStepsList, init_mint, mint_to, check_program_account, hK, if_pos,
        List.mem_cons, List.mem_singleton, Except.ok.injEq, reduceCtorEq,
        List.not_mem_nil, or_false, false_or] at hmem
      rcases hmem with hmem | ⟨htk, hm, hdst, ha, hsk, hamt⟩
      all_goals simp_all [List.getD]
    · simp [mintStepsList, init_mint, mint_to, check_program_account, hK] at hmem
  · intro env accounts t u h
    obtain ⟨a0, a1, a2, a3, a4, a5, a6, a7, a8, a9, a10, rest, rent, hacc, hs, hr, hK, htr⟩ :=
      process_mint_ok_shape env accounts t u h
    subst hacc
    rw [htr]
    simp [mintCallList, Call.kind, List.filter, List.getD]

/-- Witness for C8: on the concrete successful run, the trace contains
exactly one mint-to call, of one unit into the ata account, authorized by
the signer. -/
theorem process_mint_mint_to_one_witness :
    ((process_mint env0 accts0 none []).1.filter
        fun c => decide (c.kind = CallKind.mintTo)) =
      [Call.mintTo (accts0.getD 4 ⟨0, false, 0, 0⟩).key
        (accts0.getD 2 ⟨0, false, 0, 0⟩).key (accts0.getD 3 ⟨0, false, 0, 0⟩).key
        (accts0.getD 1 ⟨0, false, 0, 0⟩).key [(accts0.getD 1 ⟨0, false, 0, 0⟩).key] 1] :=
  process_mint_mint_to_one.2 env0 accts0 none [] (by rfl)

/-- A pipeline whose steps are all successfully built calls emits a prefix
of those calls: every emitted call but the last succeeded, and a successful
result means all of them ran. -/
lemma runPipeline_oks (env : Env) :
    ∀ cs : List Call, ∃ n, n ≤ cs.length ∧
      (runPipeline env (cs.map Except.ok)).1 = cs.take n ∧
      (∀ c ∈ (cs.take n).dropLast, env.callResult c = .ok ()) ∧
      ((runPipeline env (cs.map Except.ok)).2 = .ok () → n = cs.length) := by
  intro cs
  induction cs with
  | nil => exact ⟨0, by simp [runPipeline]⟩
  | cons c rest ih =>
    cases hr : env.callResult c with
    | error e =>
      refine ⟨1, by simp, ?_, ?_, ?_⟩
      · simp [runPipeline, hr]
      · simp
      · simp [runPipeline, hr]
    | ok u =>
      cases u
      obtain ⟨n, hn, htr, hdrop, hok⟩ := ih
      refine ⟨n + 1, by simp; omega, ?_, ?_, ?_⟩
      · simp [runPipeline, hr, htr]
      · intro c' hc'
        cases hl : rest.take n with
        | nil => simp [hl] at hc'
        | cons y ys =>
          rw [List.take_succ_cons, hl, List.dropLast_cons₂] at hc'
          rcases List.mem_cons.mp hc' with hc' | hc'
          · exact hc' ▸ hr
          · exact hdrop c' (by rw [hl]; exact hc')
      · intro h
        have : (runPipeline env (rest.map Except.ok)).2 = .ok () := by
          simpa [runPipeline, hr] using h
        simp [hok this]

/-- The fixed order of the pipeline's external calls. -/
def fullKinds : List CallKind :=
  [.createAccount, .initMint, .createAta, .mintTo, .createMetadata, .createMasterEdition]

/-- Claim C1: the trace of emitted external calls is always a prefix of the
fixed order create-account, initialize-mint, create-ata, mint-to,
create-metadata, create-master-edition; any emitted mint-to call is preceded
by a successful initialize-mint call for the same mint address; every
emitted call except possibly the last succeeded (the first failing call is
terminal); and a successful run emitted all six calls in order. -/
theorem process_mint_call_order (env : Env) (accounts : List AccountInfo)
    (t : Option (List Nat)) (u : List Nat) :
    (∃ ks, ((process_mint env accounts t u).1.map Call.kind) ++ ks = fullKinds) ∧
    (∀ c ∈ (process_mint env accounts t u).1, c.kind = CallKind.mintTo →
      ∃ pre c0 suf, (process_mint env accounts t u).1 = pre ++ c0 :: suf ∧ c ∈ suf ∧
        c0.kind = CallKind.initMint ∧ env.callResult c0 = .ok () ∧
        c0.mintKey = c.mintKey) ∧
    (∀ c ∈ (process_mint env accounts t u).1.dropLast, env.callResult c = .ok ()) ∧
    ((process_mint env accounts t u).2 = .ok () →
      (process_mint env accounts t u).1.map Call.kind = fullKinds) := by
  cases hms : mintSteps env accounts with
  | error e =>
    have hpm : process_mint env accounts t u = ([], .error e) := by
      simp [process_mint, hms]
    rw [hpm]
    exact ⟨⟨fullKinds, rfl⟩, by simp, by simp, by simp⟩
  | ok steps =>
    obtain ⟨a0, a1, a2, a3, a4, a5, a6, a7, a8, a9, a10, rest, rent, hacc, hs, hr, hsteps⟩ :=
      mintSteps_eq_ok env accounts steps hms
    have hpm : process_mint env accounts t u =
        runPipeline env (mintStepsList a0 a1 a2 a3 a4 a8 a9 a10 (rent.minimumBalance 82)) := by
      simp [process_mint, hms, hsteps]
    rw [hpm]
    by_cases hK : a4.key = SPL_TOKEN_ID
    · rw [mintStepsList_eq_map a0 a1 a2 a3 a4 a8 a9 a10 _ hK]
      obtain ⟨n, hn, htr, hdrop, hok⟩ :=
        runPipeline_oks env (mintCallList a0 a1 a2 a3 a4 a8 a9 a10 (rent.minimumBalance 82))
      rw [htr]
      have hn6 : n ≤ 6 := by simpa [mintCallList] using hn
      interval_cases n
      · refine ⟨⟨_, rfl⟩, ?_, hdrop, ?_⟩
        · intro c hc _; exfalso; simp [mintCallList] at hc
        · intro hres; have h6 := hok hres; simp [mintCallList] at h6
      · refine ⟨⟨_, rfl⟩, ?_, hdrop, ?_⟩
        · intro c hc hkind; exfalso; fin_cases hc; simp [Call.kind] at hkind
        · intro hres; have h6 := hok hres; simp [mintCallList] at h6
      · refine ⟨⟨_, rfl⟩, ?_, hdrop, ?_⟩
        · intro c hc hkind; exfalso; fin_cases hc <;> simp [Call.kind] at hkind
        · intro hres; have h6 := hok hres; simp [mintCallList] at h6
      · refine ⟨⟨_, rfl⟩, ?_, hdrop, ?_⟩
        · intro c hc hkind; exfalso; fin_cases hc <;> simp [Call.kind] at hkind
        · intro hres; have h6 := hok hres; simp [mintCallList] at h6
      · refine ⟨⟨_, rfl⟩, ?_, hdrop, ?_⟩
        · intro c hc hkind
          have hc4 : c = Call.mintTo a4.key a2.key a3.key a1.key [a1.key] 1 := by
            fin_cases hc <;> first | rfl | (exfalso; simp [Call.kind] at hkind)
          subst hc4
          refine ⟨[Call.createAccount a1.key a2.key (rent.minimumBalance 82) 82 a4.key],
            Call.initMint a4.key a2.key a0.key (some a0.key) 0,
            [Call.createAta a1.key a1.key a2.key,
             Call.mintTo a4.key a2.key a3.key a1.key [a1.key] 1],
            rfl, by simp, rfl, ?_, rfl⟩
          exact hdrop _ (by simp [mintCallList])
        · intro hres; have h6 := hok hres; simp [mintCallList] at h6
      · refine ⟨⟨_, rfl⟩, ?_, hdrop, ?_⟩
        · intro c hc hkind
          have hc4 : c = Call.mintTo a4.key a2.key a3.key a1.key [a1.key] 1 := by
            fin_cases hc <;> first | rfl | (exfalso; simp [Call.kind] at hkind)
          subst hc4
          refine ⟨[Call.createAccount a1.key a2.key (rent.minimumBalance 82) 82 a4.key],
            Call.initMint a4.key a2.key a0.key (some a0.key) 0,
            [Call.createAta a1.key a1.key a2.key,
             Call.mintTo a4.key a2.key a3.key a1.key [a1.key] 1,
             Call.createMetadata a8.key a9.key a2.key a1.key a1.key a1.key
               "my_title" "my_symbol"
               "https://arweave.net/y5e5DJsiwH0s_ayfMwYk-SnrZtVZzHLQDSTZ5dNRUHA"
               (some [⟨a1.key, false, 100⟩]) 1 true false],
            rfl, by simp, rfl, ?_, rfl⟩
          exact hdrop _ (by simp [mintCallList])
        · intro hres; have h6 := hok hres; simp [mintCallList] at h6
      · refine ⟨⟨_, rfl⟩, ?_, hdrop, ?_⟩
        · intro c hc hkind
          have hc4 : c = Call.mintTo a4.key a2.key a3.key a1.key [a1.key] 1 := by
            fin_cases hc <;> first | rfl | (exfalso; simp [Call.kind] at hkind)
          subst hc4
          refine ⟨[Call.createAccount a1.key a2.key (rent.minimumBalance 82) 82 a4.key],
            Call.initMint a4.key a2.key a0.key (some a0.key) 0,
            [Call.createAta a1.key a1.key a2.key,
             Call.mintTo a4.key a2.key a3.key a1.key [a1.key] 1,
             Call.createMetadata a8.key a9.key a2.key a1.key a1.key a1.key
               "my_title" "my_symbol"
               "https://arweave.net/y5e5DJsiwH0s_ayfMwYk-SnrZtVZzHLQDSTZ5dNRUHA"
               (some [⟨a1.key, false, 100⟩]) 1 true false,
             Call.createMasterEdition a8.key a10.key a2.key a1.key a1.key a9.key a1.key
               (some 0)],
            rfl, by simp, rfl, ?_, rfl⟩
          exact hdrop _ (by simp [mintCallList])
        · intro _; rfl
    · have hsl : mintStepsList a0 a1 a2 a3 a4 a8 a9 a10 (rent.minimumBalance 82) =
          [.ok (.createAccount a1.key a2.key (rent.minimumBalance 82) 82 a4.key),
           .error .IncorrectProgramId,
           .ok (.createAta a1.key a1.key a2.key),
           .error .IncorrectProgramId,
           .ok (.createMetadata a8.key a9.key a2.key a1.key a1.key a1.key
             "my_title" "my_symbol"
             "https://arweave.net/y5e5DJsiwH0s_ayfMwYk-SnrZtVZzHLQDSTZ5dNRUHA"
             (some [⟨a1.key, false, 100⟩]) 1 true false),
           .ok (.createMasterEdition a8.key a10.key a2.key a1.key a1.key a9.key a1.key
             (some 0))] := by
        simp [mintStepsList, init_mint, mint_to, check_program_account, hK]
      rw [hsl]
      cases hr1 : env.callResult
          (.createAccount a1.key a2.key (rent.minimumBalance 82) 82 a4.key) with
      | error e =>
        have htr : runPipeline env
            [.ok (.createAccount a1.key a2.key (rent.minimumBalance 82) 82 a4.key),
             .error .IncorrectProgramId,
             .ok (.createAta a1.key a1.key a2.key),
             .error .IncorrectProgramId,
             .ok (.createMetadata a8.key a9.key a2.key a1.key a1.key a1.key
               "my_title" "my_symbol"
               "https://arweave.net/y5e5DJsiwH0s_ayfMwYk-SnrZtVZzHLQDSTZ5dNRUHA"
               (some [⟨a1.key, false, 100⟩]) 1 true false),
             .ok (.createMasterEdition a8.key a10.key a2.key a1.key a1.key a9.key a1.key
               (some 0))] =
            ([Call.createAccount a1.key a2.key (rent.minimumBalance 82) 82 a4.key],
              .error e) := by
          simp [runPipeline, hr1]
        rw [htr]
        refine ⟨⟨_, rfl⟩, ?_, by simp, by simp⟩
        intro c hc hkind; exfalso; fin_cases hc; simp [Call.kind] at hkind
      | ok u =>
        cases u
        have htr : runPipeline env
            [.ok (.createAccount a1.key a2.key (rent.minimumBalance 82) 82 a4.key),
             .error .IncorrectProgramId,
             .ok (.createAta a1.key a1.key a2.key),
             .error .IncorrectProgramId,
             .ok (.createMetadata a8.key a9.key a2.key a1.key a1.key a1.key
               "my_title" "my_symbol"
               "https://arweave.net/y5e5DJsiwH0s_ayfMwYk-SnrZtVZzHLQDSTZ5dNRUHA"
               (some [⟨a1.key, false, 100⟩]) 1 true false),
             .ok (.createMasterEdition a8.key a10.key a2.key a1.key a1.key a9.key a1.key
               (some 0))] =
            ([Call.createAccount a1.key a2.key (rent.minimumBalance 82) 82 a4.key],
              .error .IncorrectProgramId) := by
          simp [runPipeline, hr1]
        rw [htr]
        refine ⟨⟨_, rfl⟩, ?_, by simp, by simp⟩
        intro c hc hkind; exfalso; fin_cases hc; simp [Call.kind] at hkind

/-- Witness for C1: the concrete successful run emits the six calls in the
fixed order. -/
theorem process_mint_call_order_witness :
    ((process_mint env0 accts0 none []).1.map Call.kind) = fullKinds :=
  (process_mint_call_order env0 accts0 none []).2.2.2 (by rfl)

/-- Claim C9: `assert_derivation` succeeds exactly when the account's
address equals the derived address computed from the seed path and program
id; on success it returns the derivation's bump byte, and on any mismatch it
fails with `InvalidDerivedKey`. -/
theorem assert_derivation_spec (fpa : List (List Nat) → Pubkey → Pubkey × Nat)
    (program_id : Pubkey) (account : AccountInfo) (path : List (List Nat)) :
    ((∃ b, assert_derivation fpa program_id account path = .ok b) ↔
      account.key = (fpa path program_id).1) ∧
    (account.key = (fpa path program_id).1 →
      assert_derivation fpa program_id account path = .ok ((fpa path program_id).2)) ∧
    (account.key ≠ (fpa path program_id).1 →
      assert_derivation fpa program_id account path = .error .InvalidDerivedKey) := by
  by_cases h : (fpa path program_id).1 = account.key
  · simp [assert_derivation, h, eq_comm]
  · simp only [assert_derivation]
    rw [if_pos h]
    simp only [reduceCtorEq, exists_false, false_iff, ne_eq, not_false_eq_true,
      implies_true, and_true, true_and]
    exact ⟨fun hh => h hh.symm, fun hh => absurd hh.symm h⟩

/-- Witness for C9 at a concrete derivation function and account. -/
theorem assert_derivation_spec_witness :
    assert_derivation (fun _ _ => ((41 : Pubkey), 254)) 7 ⟨41, false, 0, 0⟩ [[1, 2]] =
      .ok (((fun (_ : List (List Nat)) (_ : Pubkey) => ((41 : Pubkey), 254)) [[1, 2]] 7).2) :=
  (assert_derivation_spec (fun _ _ => ((41 : Pubkey), 254)) 7 ⟨41, false, 0, 0⟩
    [[1, 2]]).2.1 (by decide)

/-- Claim C5 as stated is falsified by the `.max(1)` floor in the source:
with a rent-free rent model (minimum balance 0) and a new account holding 0
lamports, the balance is not short of the minimum, yet a transfer of 1
lamport (not of the difference, which is 0) is emitted. -/
theorem create_or_allocate_transfer_counterexample :
    ¬ (acct 21 false).lamports < rentFree.minimumBalance 10 ∧
    (Call.transfer (acct 24 false).key (acct 21 false).key 1, ([] : List (List Nat))) ∈
      (create_or_allocate_account_raw envFree 99 (acct 21 false) (acct 22 false)
        (acct 23 false) (acct 24 false) 10 [[7]]).1 := by
  decide

/-- Claim C5, amended: `create_or_allocate_account_raw` computes
`required = max(minimum rent balance for size bytes, 1)` saturating-minus
the new account's current balance; it emits a transfer from payer if and
only if `required > 0` (i.e. the balance is short of that floored minimum),
for exactly `required` and with no signing seeds; and on a successful run
the trace is that optional transfer followed by an allocate of `size` bytes
and an assign of ownership to `program_id`, both carrying `signer_seeds`,
in that order. -/
theorem create_or_allocate_account_raw_spec (env : Env) (program_id : Pubkey)
    (na rs sp payer : AccountInfo) (size : Nat) (seeds : List (List Nat)) (rent : Rent)
    (hr : env.rentOf rs = .ok rent) :
    ((∃ amt s, (Call.transfer payer.key na.key amt, s) ∈
        (create_or_allocate_account_raw env program_id na rs sp payer size seeds).1) ↔
      na.lamports < max (rent.minimumBalance size) 1) ∧
    (∀ amt s, (Call.transfer payer.key na.key amt, s) ∈
        (create_or_allocate_account_raw env program_id na rs sp payer size seeds).1 →
      amt = max (rent.minimumBalance size) 1 - na.lamports ∧ s = []) ∧
    ((create_or_allocate_account_raw env program_id na rs sp payer size seeds).2 = .ok () →
      (create_or_allocate_account_raw env program_id na rs sp payer size seeds).1 =
        (if 0 < max (rent.minimumBalance size) 1 - na.lamports then
          [(Call.transfer payer.key na.key
              (max (rent.minimumBalance size) 1 - na.lamports), [])]
         else []) ++
        [(Call.allocate na.key size, seeds), (Call.assign na.key program_id, seeds)]) := by
  by_cases h0 : 0 < max (rent.minimumBalance size) 1 - na.lamports
  · cases ht : env.callResult
        (Call.transfer payer.key na.key (max (rent.minimumBalance size) 1 - na.lamports)) with
    | error e =>
      have heq : create_or_allocate_account_raw env program_id na rs sp payer size seeds =
          ([(Call.transfer payer.key na.key
              (max (rent.minimumBalance size) 1 - na.lamports), [])], .error e) := by
        simp [create_or_allocate_account_raw, hr, h0, ht]
      rw [heq]
      refine ⟨?_, ?_, by simp⟩
      · simp; omega
      · intro amt s hm; simpa using hm
    | ok u =>
      cases u
      cases ha : env.callResult (Call.allocate na.key size) with
      | error e =>
        have heq : create_or_allocate_account_raw env program_id na rs sp payer size seeds =
            ([(Call.transfer payer.key na.key
                (max (rent.minimumBalance size) 1 - na.lamports), []),
              (Call.allocate na.key size, seeds)], .error e) := by
          simp [create_or_allocate_account_raw, hr, h0, ht, ha]
        rw [heq]
        refine ⟨?_, ?_, by simp⟩
        · simp; omega
        · intro amt s hm; simpa using hm
      | ok u =>
        cases u
        cases hg : env.callResult (Call.assign na.key program_id) with
        | error e =>
          have heq : create_or_allocate_account_raw env program_id na rs sp payer size seeds =
              ([(Call.transfer payer.key na.key
                  (max (rent.minimumBalance size) 1 - na.lamports), []),
                (Call.allocate na.key size, seeds),
                (Call.assign na.key program_id, seeds)], .error e) := by
            simp [create_or_allocate_account_raw, hr, h0, ht, ha, hg]
          rw [heq]
          refine ⟨?_, ?_, by simp⟩
          · simp; omega
          · intro amt s hm; simpa using hm
        | ok u =>
          cases u
          have heq : create_or_allocate_account_raw env program_id na rs sp payer size seeds =
              ([(Call.transfer payer.key na.key
                  (max (rent.minimumBalance size) 1 - na.lamports), []),
                (Call.allocate na.key size, seeds),
                (Call.assign na.key program_id, seeds)], .ok ()) := by
            simp [create_or_allocate_account_raw, hr, h0, ht, ha, hg]
          rw [heq]
          refine ⟨?_, ?_, ?_⟩
          · simp; omega
          · intro amt s hm; simpa using hm
          · intro _; simp [h0]
  · cases ha : env.callResult (Call.allocate na.key size) with
    | error e =>
      have heq : create_or_allocate_account_raw env program_id na rs sp payer size seeds =
          ([(Call.allocate na.key size, seeds)], .error e) := by
        simp [create_or_allocate_account_raw, hr, h0, ha]
      rw [heq]
      refine ⟨?_, by simp, by simp⟩
      · simp; omega
    | ok u =>
      cases u
      cases hg : env.callResult (Call.assign na.key program_id) with
      | error e =>
        have heq : create_or_allocate_account_raw env program_id na rs sp payer size seeds =
            ([(Call.allocate na.key size, seeds),
              (Call.assign na.key program_id, seeds)], .error e) := by
          simp [create_or_allocate_account_raw, hr, h0, ha, hg]
        rw [heq]
        refine ⟨?_, by simp, by simp⟩
        · simp; omega
      | ok u =>
        cases u
        have heq : create_or_allocate_account_raw env program_id na rs sp payer size seeds =
            ([(Call.allocate na.key size, seeds),
              (Call.assign na.key program_id, seeds)], .ok ()) := by
          simp [create_or_allocate_account_raw, hr, h0, ha, hg]
        rw [heq]
        refine ⟨?_, by simp, ?_⟩
        · simp; omega
        · intro _; simp [h0]

/-- Witness for the amended C5: the full trace of a concrete successful
run. -/
theorem create_or_allocate_account_raw_spec_witness :
    (create_or_allocate_account_raw env0 99 (acct 21 false) (acct 22 false) (acct 23 false)
        (acct 24 false) 10 [[7]]).1 =
      (if 0 < max (rent0.minimumBalance 10) 1 - (acct 21 false).lamports then
        [(Call.transfer (acct 24 false).key (acct 21 false).key
            (max (rent0.minimumBalance 10) 1 - (acct 21 false).lamports), [])]
       else []) ++
      [(Call.allocate (acct 21 false).key 10, [[7]]),
       (Call.assign (acct 21 false).key 99, [[7]])] :=
  (create_or_allocate_account_raw_spec env0 99 (acct 21 false) (acct 22 false)
    (acct 23 false) (acct 24 false) 10 [[7]] rent0 rfl).2.2 (by rfl)

/-! ### Round-trip lemmas for the borsh wire format -/

/-- Decoding a serialized `u32` recovers it and leaves the rest. -/
lemma readU32_serializeU32 (n : Nat) (h : n < 4294967296) (rest : List Nat) :
    readU32 (serializeU32 n ++ rest) = some (n, rest) := by
  simp only [serializeU32, List.cons_append, List.nil_append, readU32,
    Option.some.injEq, Prod.mk.injEq, and_true]
  omega

/-- Reading back exactly the bytes that were written. -/
lemma readBytes_append (s rest : List Nat) :
    readBytes s.length (s ++ rest) = some (s, rest) := by
  unfold readBytes
  rw [if_pos (by simp)]
  simp

/-- Decoding a serialized string recovers it and leaves the rest. -/
lemma readString_append (s : List Nat) (h : s.length < 4294967296) (rest : List Nat) :
    readString (serializeBytes s ++ rest) = some (s, rest) := by
  simp only [readString, serializeBytes, List.append_assoc,
    readU32_serializeU32 s.length h (s ++ rest), readBytes_append]

/-- Decoding a serialized optional string recovers it and leaves the
rest. -/
lemma readOptString_append (t : Option (List Nat)) (h : lenOkOpt t = true)
    (rest : List Nat) :
    readOptString (serializeOptBytes t ++ rest) = some (t, rest) := by
  cases t with
  | none => simp [serializeOptBytes, readOptString]
  | some s =>
    have hs : s.length < 4294967296 := by simpa [lenOkOpt] using h
    simp [serializeOptBytes, readOptString, readString_append s hs rest]

/-- Decoding a serialized instruction recovers it and leaves the rest. -/
lemma readGameInstruction_append (gi : GameInstruction) (h : gi.lenOk = true)
    (rest : List Nat) :
    readGameInstruction (gi.serialize ++ rest) = some (gi, rest) := by
  cases gi with
  | Mint a =>
    obtain ⟨hu, ht⟩ : a.uri.length < 4294967296 ∧ lenOkOpt a.title = true := by
      simpa [GameInstruction.lenOk] using h
    simp [GameInstruction.serialize, MintNftArgs.serialize, readGameInstruction,
      readMintNftArgs, List.append_assoc, readString_append a.uri hu,
      readOptString_append a.title ht]

/-- A decoded `u32` re-serializes to the four bytes it was read from. -/
lemma readU32_inv (l : List Nat) (n : Nat) (rest : List Nat)
    (hb : ∀ b ∈ l, b < 256) (h : readU32 l = some (n, rest)) :
    serializeU32 n ++ rest = l := by
  rcases l with _ | ⟨b0, _ | ⟨b1, _ | ⟨b2, _ | ⟨b3, l4⟩⟩⟩⟩ <;> simp [readU32] at h
  obtain ⟨rfl, rfl⟩ := h
  have h0 : b0 < 256 := hb b0 (by simp)
  have h1 : b1 < 256 := hb b1 (by simp)
  have h2 : b2 < 256 := hb b2 (by simp)
  have h3 : b3 < 256 := hb b3 (by simp)
  simp only [serializeU32, List.cons_append, List.nil_append, List.cons.injEq, and_true]
  refine ⟨?_, ?_, ?_, ?_⟩ <;> omega

/-- `readBytes` returns a segment of the buffer of the requested length. -/
lemma readBytes_inv (n : Nat) (l s rest : List Nat)
    (h : readBytes n l = some (s, rest)) : s ++ rest = l ∧ s.length = n := by
  unfold readBytes at h
  by_cases hle : n ≤ l.length
  · rw [if_pos hle] at h
    obtain ⟨rfl, rfl⟩ : l.take n = s ∧ l.drop n = rest := by simpa using h
    exact ⟨List.take_append_drop n l, by rw [List.length_take]; omega⟩
  · rw [if_neg hle] at h
    simp at h

/-- A decoded string re-serializes to the bytes it was read from. -/
lemma readString_inv (l s rest : List Nat) (hb : ∀ b ∈ l, b < 256)
    (h : readString l = some (s, rest)) : serializeBytes s ++ rest = l := by
  unfold readString at h
  cases hu : readU32 l with
  | none => rw [hu] at h; simp at h
  | some p =>
    obtain ⟨n, r1⟩ := p
    rw [hu] at h
    obtain ⟨happ, hlen⟩ := readBytes_inv n r1 s rest h
    have hl : serializeU32 n ++ r1 = l := readU32_inv l n r1 hb hu
    rw [serializeBytes, hlen, List.append_assoc, happ]
    exact hl

/-- Bytes of a suffix reachable through an append are bytes of the whole. -/
lemma bytes_lt_of_append {l r1 : List Nat} (pre : List Nat)
    (hb : ∀ b ∈ l, b < 256) (happ : pre ++ r1 = l) : ∀ b ∈ r1, b < 256 := by
  intro b hbr
  exact hb b (happ ▸ List.mem_append_right pre hbr)

/-- A decoded optional string re-serializes to the bytes it was read
from. -/
lemma readOptString_inv (l : List Nat) (t : Option (List Nat)) (rest : List Nat)
    (hb : ∀ b ∈ l, b < 256) (h : readOptString l = some (t, rest)) :
    serializeOptBytes t ++ rest = l := by
  rcases l with _ | ⟨b, r⟩
  · simp [readOptString] at h
  · rcases b with _ | ⟨_ | b2⟩
    · simp only [readOptString, Option.some.injEq, Prod.mk.injEq] at h
      obtain ⟨rfl, rfl⟩ := h
      simp [serializeOptBytes]
    · simp only [readOptString] at h
      cases hs : readString r with
      | none => rw [hs] at h; simp at h
      | some p =>
        obtain ⟨s, r2⟩ := p
        rw [hs] at h
        obtain ⟨rfl, rfl⟩ : some s = t ∧ r2 = rest := by simpa using h
        have hbr : ∀ x ∈ r, x < 256 := fun x hx => hb x (List.mem_cons_of_mem _ hx)
        have := readString_inv r s r2 hbr hs
        simp only [serializeOptBytes, List.cons_append, this]
    · simp [readOptString] at h

/-- A decoded `MintNftArgs` re-serializes to the bytes it was read from. -/
lemma readMintNftArgs_inv (l : List Nat) (a : MintNftArgs) (rest : List Nat)
    (hb : ∀ b ∈ l, b < 256) (h : readMintNftArgs l = some (a, rest)) :
    a.serialize ++ rest = l := by
  cases hu : readString l with
  | none => simp [readMintNftArgs, hu] at h
  | some p =>
    obtain ⟨uri, r1⟩ := p
    cases hot : readOptString r1 with
    | none => simp [readMintNftArgs, hu, hot] at h
    | some q =>
      obtain ⟨title, r2⟩ := q
      obtain ⟨rfl, rfl⟩ : MintNftArgs.mk uri title = a ∧ r2 = rest := by
        simpa [readMintNftArgs, hu, hot] using h
      have hr1 := readString_inv l uri r1 hb hu
      have hbr1 : ∀ x ∈ r1, x < 256 :=
        bytes_lt_of_append (serializeBytes uri) hb hr1
      have hr2 := readOptString_inv r1 title r2 hbr1 hot
      rw [MintNftArgs.serialize, List.append_assoc, hr2]
      exact hr1

/-- A decoded instruction re-serializes to the bytes it was read from. -/
lemma readGameInstruction_inv (l : List Nat) (gi : GameInstruction) (rest : List Nat)
    (hb : ∀ b ∈ l, b < 256) (h : readGameInstruction l = some (gi, rest)) :
    gi.serialize ++ rest = l := by
  rcases l with _ | ⟨b, r⟩
  · simp [readGameInstruction] at h
  · rcases b with _ | b1
    · cases ha : readMintNftArgs r with
      | none => simp [readGameInstruction, ha] at h
      | some p =>
        obtain ⟨a, r2⟩ := p
        obtain ⟨rfl, rfl⟩ : GameInstruction.Mint a = gi ∧ r2 = rest := by
          simpa [readGameInstruction, ha] using h
        have hbr : ∀ x ∈ r, x < 256 := fun x hx => hb x (List.mem_cons_of_mem _ hx)
        have := readMintNftArgs_inv r a r2 hbr ha
        simp only [GameInstruction.serialize, List.cons_append, this]
    · simp [readGameInstruction] at h

/-- Claim C6: borsh serialization and deserialization of `GameInstruction`
are mutually inverse — a serializable instruction decodes from its own
encoding, and any buffer (of genuine bytes) that decodes fully is exactly
the re-encoding of the decoded instruction, so decoding then re-encoding is
the identity on valid encodings. -/
theorem game_instruction_round_trip :
    (∀ gi : GameInstruction, gi.lenOk = true →
      gameInstructionTryFromSlice gi.serialize = .ok gi) ∧
    (∀ (input : List Nat) (gi : GameInstruction), (∀ b ∈ input, b < 256) →
      gameInstructionTryFromSlice input = .ok gi → gi.serialize = input) := by
  constructor
  · intro gi h
    have hr := readGameInstruction_append gi h []
    rw [List.append_nil] at hr
    simp [gameInstructionTryFromSlice, hr]
  · intro input gi hb h
    unfold gameInstructionTryFromSlice at h
    cases hg : readGameInstruction input with
    | none => rw [hg] at h; simp at h
    | some p =>
      obtain ⟨gi2, rest⟩ := p
      rw [hg] at h
      cases rest with
      | nil =>
        obtain rfl : gi2 = gi := by simpa using h
        have := readGameInstruction_inv input gi2 [] hb hg
        simpa using this
      | cons x xs => simp at h

/-- Witness for C6: a concrete encode-decode and decode-encode pair. -/
theorem game_instruction_round_trip_witness :
    gameInstructionTryFromSlice
        (GameInstruction.serialize (.Mint ⟨[104, 105], some [33]⟩)) =
      .ok (.Mint ⟨[104, 105], some [33]⟩) ∧
    GameInstruction.serialize (.Mint ⟨[65], none⟩) = [0, 1, 0, 0, 0, 65, 0] :=
  ⟨game_instruction_round_trip.1 (.Mint ⟨[104, 105], some [33]⟩) (by decide),
   game_instruction_round_trip.2 [0, 1, 0, 0, 0, 65, 0] (.Mint ⟨[65], none⟩)
     (by decide) (by rfl)⟩

/-- Claim C10: the decoder rejects trailing bytes — any buffer consisting of
a well-formed instruction encoding followed by at least one extra byte makes
`process_instruction` fail with a decode error and emit no external call. -/
theorem process_instruction_rejects_trailing (env : Env)
    (accounts : List AccountInfo) (gi : GameInstruction) (extra : List Nat)
    (hlen : gi.lenOk = true) (hx : extra ≠ []) :
    process_instruction env accounts (gi.serialize ++ extra) =
      ([], .error .DecodeError) := by
  have hread := readGameInstruction_append gi hlen extra
  rcases extra with _ | ⟨b, ex⟩
  · exact absurd rfl hx
  · simp [process_instruction, gameInstructionTryFromSlice, hread]

/-- Witness for C10: one trailing byte after a well-formed encoding. -/
theorem process_instruction_rejects_trailing_witness :
    process_instruction env0 accts0
        (GameInstruction.serialize (.Mint ⟨[65], none⟩) ++ [9]) =
      ([], .error .DecodeError) :=
  process_instruction_rejects_trailing env0 accts0 (.Mint ⟨[65], none⟩) [9]
    (by decide) (by decide)

end MintNft
